import Mathlib

/-!
Package naming validator

A shallow embedding of `pkg/apiserver/apis/packages/validation/validations.go`
(package `validation` of kapp-controller) together with the properties proved
about it.

Go strings are embedded as Lean `String`s.  The validator only ever asks three
things of a string: whether it is empty, how it splits on the one-byte
separator `.`, and whether another string is a prefix of it.  For well-formed
UTF-8 text those byte-level questions have the same answers on the sequence of
characters, which is what the definitions below inspect.

The call `log.Printf` inside `ValidatePackageVersionName` writes to the process
log and has no influence on the returned value; it is left out.
-/

namespace strings

/-- Go `strings.HasPrefix(s, p)`: `p` is an initial segment of `s`. -/
def HasPrefix (s p : String) : Bool :=
  p.data.isPrefixOf s.data

/-- Worker of `Split`: `cur` holds, in reverse, the characters of the segment
being read. -/
def splitAux (sep : Char) : List Char → List Char → List String
  | [], cur => [String.mk cur.reverse]
  | c :: cs, cur =>
    if c = sep then String.mk cur.reverse :: splitAux sep cs []
    else splitAux sep cs (c :: cur)

/-- Go `strings.Split(s, sep)` for a separator of one character (the validator
calls it with `"."` only): the segments of `s` between the occurrences of
`sep`.  The empty string has the single segment `""`. -/
def Split (s : String) (sep : Char) : List String :=
  splitAux sep s.data []

/-- Go `strings.Join(elems, sep)`. -/
def Join : List String → String → String
  | [], _ => ""
  | [a], _ => a
  | a :: b :: rest, sep => a ++ sep ++ Join (b :: rest) sep

end strings

namespace field

/-- Modelled from the spec: the error kind tag of `k8s.io/apimachinery`'s
`field.ErrorType`, whose declaration is not part of the sources.  The
specification knows two kinds, `Required` and `Invalid`. -/
inductive ErrorType where
  | ErrorTypeRequired
  | ErrorTypeInvalid
  deriving DecidableEq, Repr

/-- Modelled from the spec: a field path (`field.Path`, declared outside the
sources) is an immutable sequence of path segments; `metadata.name` is
`["metadata", "name"]`. -/
abbrev Path := List String

/-- Modelled from the spec: `field.NewPath(name, moreNames...)`, the path made of
the given segments. -/
def NewPath (name : String) (moreNames : List String) : Path :=
  name :: moreNames

/-- Modelled from the spec: `p.Child(name)`, the path `p` extended by one
segment. -/
def Path.Child (p : Path) (name : String) : Path :=
  p ++ [name]

/-- Modelled from the spec: a structured field error (`field.Error`, declared
outside the sources).  It carries the kind tag, the field path, the offending
value (nothing for the `Required` kind) and a human-readable message. -/
structure Error where
  Kind : ErrorType
  Field : Path
  BadValue : Option String
  Detail : String
  deriving DecidableEq, Repr

/-- Modelled from the spec: the ordered sequence of field errors
(`field.ErrorList`). -/
abbrev ErrorList := List Error

/-- Modelled from the spec: `field.Required(path, detail)`, an error of kind
`Required`, carrying no offending value. -/
def Required (fldPath : Path) (detail : String) : Error :=
  { Kind := ErrorType.ErrorTypeRequired, Field := fldPath, BadValue := none, Detail := detail }

/-- Modelled from the spec: `field.Invalid(path, value, detail)`, an error of
kind `Invalid`, carrying the offending value. -/
def Invalid (fldPath : Path) (value : String) (detail : String) : Error :=
  { Kind := ErrorType.ErrorTypeInvalid, Field := fldPath, BadValue := some value, Detail := detail }

end field

namespace validation

/-- A lowercase ASCII letter or a digit. -/
def isLowerAlnum (c : Char) : Bool :=
  c.isLower || c.isDigit

/-- A character allowed in a DNS-1123 subdomain. -/
def isSubdomainChar (c : Char) : Bool :=
  isLowerAlnum c || c = '-' || c = '.'

/-- Whether the first and the last character of a string are alphanumeric; the
empty string has neither. -/
def startsAndEndsAlnum (cs : List Char) : Bool :=
  match cs.head?, cs.getLast? with
  | some a, some b => isLowerAlnum a && isLowerAlnum b
  | _, _ => false

/-- Modelled from the spec: `IsDNS1123Subdomain` of
`k8s.io/apimachinery/pkg/util/validation` is not part of the sources.  The
specification describes a DNS-1123 subdomain as: lowercase alphanumeric
characters, `-` and `.`, starting and ending with an alphanumeric character,
total length at most 253, each dot-delimited label at most 63 characters.  The
result lists one syntax detail per rule that is broken; it is empty exactly
when the value is a DNS-1123 subdomain.  The wording of the details is not fixed
by the specification. -/
def IsDNS1123Subdomain (value : String) : List String :=
  (if value.length ≤ 253 then [] else ["must be no more than 253 characters"])
  ++ (if value.data.all isSubdomainChar && startsAndEndsAlnum value.data then []
      else ["must consist of lower case alphanumeric characters, - or ., and must start and end with an alphanumeric character"])
  ++ (if (strings.Split value '.').all (fun l => decide (l.length ≤ 63)) then []
      else ["each label must be no more than 63 characters"])

end validation

open field in
/-- Source lines 87-99.  Three checks, each returning at once when it fails:
emptiness, DNS-1123 subdomain syntax, at least three dot-separated segments. -/
def IsFullyQualifiedName (fldPath : Path) (name : String) : ErrorList :=
  let allErrors : ErrorList := []
  if name.length = 0 then
    allErrors ++ [Required fldPath ""]
  else
    let errs := validation.IsDNS1123Subdomain name
    if errs.length > 0 then
      allErrors ++ [Invalid fldPath name (strings.Join errs ",")]
    else if (strings.Split name '.').length < 3 then
      allErrors ++ [Invalid fldPath name
        "should be a domain with at least three segments separated by dots"]
    else
      allErrors

/-- The part of `packages.Package` the validator reads: `ObjectMeta.Name`. -/
structure Package where
  Name : String
  deriving DecidableEq, Repr

/-- The part of `packages.PackageVersionSpec` the validator reads. -/
structure PackageVersionSpec where
  PackageName : String
  Version : String
  deriving DecidableEq, Repr

/-- The part of `packages.PackageVersion` the validator reads:
`ObjectMeta.Name` and `Spec`. -/
structure PackageVersion where
  Name : String
  Spec : PackageVersionSpec
  deriving DecidableEq, Repr

open field in
/-- Source lines 25-32.  The call is written `validation.IsFullyQualifiedName`;
the function of that name and signature in the sources is the one at lines
87-99. -/
def ValidatePackageName (pkgName : String) (fldPath : Path) : ErrorList :=
  let allErrs : ErrorList := []
  allErrs ++ IsFullyQualifiedName fldPath pkgName

open field in
/-- Source lines 16-22. -/
def ValidatePackage (pkg : Package) : ErrorList :=
  let allErrs : ErrorList := []
  allErrs ++ ValidatePackageName pkg.Name ((NewPath "metadata" []).Child "name")

open field in
/-- Source lines 51-61. -/
def ValidatePackageVersionName (pvName pkgName : String) (fldPath : Path) : ErrorList :=
  let allErrs : ErrorList := []
  if !strings.HasPrefix pvName (pkgName ++ ".") then
    allErrs ++ [Invalid fldPath pvName "must begin with <spec.packageName> + '.'"]
  else
    allErrs

open field in
/-- Source lines 64-73. -/
def ValidatePackageVersionSpecVersion (version : String) (fldPath : Path) : ErrorList :=
  let allErrs : ErrorList := []
  if version = "" then
    allErrs ++ [Invalid fldPath version "cannot be empty"]
  else
    allErrs

open field in
/-- Source lines 76-85. -/
def ValidatePackageVersionSpecPackageName (name : String) (fldPath : Path) : ErrorList :=
  let allErrs : ErrorList := []
  let allErrs := if name = "" then allErrs ++ [Required fldPath "can not be empty"] else allErrs
  allErrs ++ ValidatePackageName name fldPath

open field in
/-- Source lines 36-48. -/
def ValidatePackageVersion (pv : PackageVersion) : ErrorList :=
  let allErrs : ErrorList := []
  let allErrs := allErrs ++
    ValidatePackageVersionSpecPackageName pv.Spec.PackageName (NewPath "spec" ["packageName"])
  let allErrs := allErrs ++
    ValidatePackageVersionSpecVersion pv.Spec.Version (NewPath "spec" ["version"])
  let allErrs := allErrs ++
    ValidatePackageVersionName pv.Name pv.Spec.PackageName ((NewPath "metadata" []).Child "name")
  allErrs

/-- Specification §4.2: `ValidatePackage` runs `IsFullyQualifiedName` against
`pkg.Name` at path `metadata.name`, and nothing else. -/
def ValidatePackage_spec (pkg : Package) : field.ErrorList :=
  IsFullyQualifiedName ["metadata", "name"] pkg.Name

/-! ## Auxiliary facts -/

theorem String.eq_empty_of_length_eq_zero (s : String) (h : s.length = 0) : s = "" := by
  cases s with
  | mk data =>
    have hd : data = [] := List.length_eq_zero.mp h
    subst hd
    rfl

theorem String.length_eq_zero_iff_eq_empty (s : String) : s.length = 0 ↔ s = "" :=
  ⟨String.eq_empty_of_length_eq_zero s, fun h => by subst h; rfl⟩

theorem strings.Split_empty (sep : Char) : strings.Split "" sep = [""] := rfl

theorem validation.IsDNS1123Subdomain_empty : validation.IsDNS1123Subdomain "" ≠ [] := by
  decide

theorem validation.ne_empty_of_IsDNS1123Subdomain_nil (value : String)
    (h : validation.IsDNS1123Subdomain value = []) : value ≠ "" := by
  intro he
  subst he
  exact validation.IsDNS1123Subdomain_empty h

theorem IsFullyQualifiedName_empty (fldPath : field.Path) :
    IsFullyQualifiedName fldPath "" = [field.Required fldPath ""] := rfl

theorem IsFullyQualifiedName_of_syntax_error (fldPath : field.Path) (name : String)
    (hne : name ≠ "") (hdns : validation.IsDNS1123Subdomain name ≠ []) :
    IsFullyQualifiedName fldPath name =
      [field.Invalid fldPath name (strings.Join (validation.IsDNS1123Subdomain name) ",")] := by
  have hlen : name.length ≠ 0 := fun h => hne (String.eq_empty_of_length_eq_zero name h)
  have hpos : (validation.IsDNS1123Subdomain name).length > 0 := List.length_pos.mpr hdns
  simp [IsFullyQualifiedName, hlen, hpos]

theorem IsFullyQualifiedName_segments (fldPath : field.Path) (name : String)
    (hne : name ≠ "") (hdns : validation.IsDNS1123Subdomain name = [])
    (hseg : (strings.Split name '.').length < 3) :
    IsFullyQualifiedName fldPath name =
      [field.Invalid fldPath name
        "should be a domain with at least three segments separated by dots"] := by
  have hlen : name.length ≠ 0 := fun h => hne (String.eq_empty_of_length_eq_zero name h)
  simp [IsFullyQualifiedName, hlen, hdns, hseg]

theorem IsFullyQualifiedName_accept (fldPath : field.Path) (name : String)
    (hne : name ≠ "") (hdns : validation.IsDNS1123Subdomain name = [])
    (hseg : 3 ≤ (strings.Split name '.').length) :
    IsFullyQualifiedName fldPath name = [] := by
  have hlen : name.length ≠ 0 := fun h => hne (String.eq_empty_of_length_eq_zero name h)
  have hseg2 : ¬ (strings.Split name '.').length < 3 := Nat.not_lt.mpr hseg
  simp [IsFullyQualifiedName, hlen, hdns, hseg2]

theorem IsFullyQualifiedName_eq_nil_iff (fldPath : field.Path) (name : String) :
    IsFullyQualifiedName fldPath name = [] ↔
      (validation.IsDNS1123Subdomain name = [] ∧ 3 ≤ (strings.Split name '.').length) := by
  by_cases hne : name = ""
  · subst hne
    simp [IsFullyQualifiedName_empty, strings.Split_empty]
  · by_cases hdns : validation.IsDNS1123Subdomain name = []
    · by_cases hseg : (strings.Split name '.').length < 3
      · rw [IsFullyQualifiedName_segments fldPath name hne hdns hseg]
        simp [hdns]
        omega
      · rw [IsFullyQualifiedName_accept fldPath name hne hdns (Nat.not_lt.mp hseg)]
        simp [hdns]
        omega
    · rw [IsFullyQualifiedName_of_syntax_error fldPath name hne hdns]
      simp [hdns]

theorem IsFullyQualifiedName_length_le_one (fldPath : field.Path) (name : String) :
    (IsFullyQualifiedName fldPath name).length ≤ 1 := by
  by_cases hne : name = ""
  · subst hne
    simp [IsFullyQualifiedName_empty]
  · by_cases hdns : validation.IsDNS1123Subdomain name = []
    · by_cases hseg : (strings.Split name '.').length < 3
      · simp [IsFullyQualifiedName_segments fldPath name hne hdns hseg]
      · simp [IsFullyQualifiedName_accept fldPath name hne hdns (Nat.not_lt.mp hseg)]
    · simp [IsFullyQualifiedName_of_syntax_error fldPath name hne hdns]

theorem IsFullyQualifiedName_field (fldPath : field.Path) (name : String) :
    ∀ e ∈ IsFullyQualifiedName fldPath name, e.Field = fldPath := by
  by_cases hne : name = ""
  · subst hne
    simp [IsFullyQualifiedName_empty, field.Required]
  · by_cases hdns : validation.IsDNS1123Subdomain name = []
    · by_cases hseg : (strings.Split name '.').length < 3
      · simp [IsFullyQualifiedName_segments fldPath name hne hdns hseg, field.Invalid]
      · simp [IsFullyQualifiedName_accept fldPath name hne hdns (Nat.not_lt.mp hseg)]
    · simp [IsFullyQualifiedName_of_syntax_error fldPath name hne hdns, field.Invalid]

theorem ValidatePackageName_eq (pkgName : String) (fldPath : field.Path) :
    ValidatePackageName pkgName fldPath = IsFullyQualifiedName fldPath pkgName := by
  simp [ValidatePackageName]

theorem ValidatePackage_eq (pkg : Package) :
    ValidatePackage pkg = IsFullyQualifiedName ["metadata", "name"] pkg.Name := by
  simp [ValidatePackage, ValidatePackageName_eq, field.NewPath, field.Path.Child]

theorem ValidatePackageVersion_eq (pv : PackageVersion) :
    ValidatePackageVersion pv =
      ValidatePackageVersionSpecPackageName pv.Spec.PackageName ["spec", "packageName"]
      ++ ValidatePackageVersionSpecVersion pv.Spec.Version ["spec", "version"]
      ++ ValidatePackageVersionName pv.Name pv.Spec.PackageName ["metadata", "name"] := by
  simp [ValidatePackageVersion, field.NewPath, field.Path.Child]

theorem ValidatePackageVersionSpecPackageName_eq_nil_iff (name : String) (fldPath : field.Path) :
    ValidatePackageVersionSpecPackageName name fldPath = [] ↔
      IsFullyQualifiedName fldPath name = [] := by
  by_cases hne : name = ""
  · subst hne
    simp [ValidatePackageVersionSpecPackageName, IsFullyQualifiedName_empty]
  · simp [ValidatePackageVersionSpecPackageName, ValidatePackageName_eq, hne]

theorem ValidatePackageVersionSpecPackageName_field (name : String) (fldPath : field.Path) :
    ∀ e ∈ ValidatePackageVersionSpecPackageName name fldPath, e.Field = fldPath := by
  intro e he
  by_cases hne : name = ""
  · subst hne
    simp [ValidatePackageVersionSpecPackageName, ValidatePackageName_eq,
      IsFullyQualifiedName_empty, field.Required] at he
    rcases he with he | he <;> simp [he]
  · simp [ValidatePackageVersionSpecPackageName, ValidatePackageName_eq, hne] at he
    exact IsFullyQualifiedName_field fldPath name e he

theorem ValidatePackageVersionSpecVersion_eq (version : String) (fldPath : field.Path) :
    ValidatePackageVersionSpecVersion version fldPath =
      if version = "" then [field.Invalid fldPath "" "cannot be empty"] else [] := by
  by_cases h : version = ""
  · subst h
    simp [ValidatePackageVersionSpecVersion]
  · simp [ValidatePackageVersionSpecVersion, h]

theorem ValidatePackageVersionName_eq (pvName pkgName : String) (fldPath : field.Path) :
    ValidatePackageVersionName pvName pkgName fldPath =
      if strings.HasPrefix pvName (pkgName ++ ".") = true then []
      else [field.Invalid fldPath pvName "must begin with <spec.packageName> + '.'"] := by
  by_cases h : strings.HasPrefix pvName (pkgName ++ ".") = true
  · simp [ValidatePackageVersionName, h]
  · simp [ValidatePackageVersionName, h]

theorem strings.HasPrefix_append (p t : String) : strings.HasPrefix (p ++ t) p = true := by
  simp [strings.HasPrefix, String.data_append]

/-! ## The name-grammar checker -/

/-- C1: for every field path and every name, `IsFullyQualifiedName` returns the
empty error list if and only if the DNS-1123 subdomain check reports no error
for the name and splitting the name on `.` yields at least three segments; the
name `my.pkg.example.com` is accepted. -/
theorem IsFullyQualifiedName_accepts_iff (fldPath : field.Path) (name : String) :
    (IsFullyQualifiedName fldPath name = [] ↔
      (validation.IsDNS1123Subdomain name = [] ∧ 3 ≤ (strings.Split name '.').length))
    ∧ IsFullyQualifiedName fldPath "my.pkg.example.com" = [] := by
  refine ⟨IsFullyQualifiedName_eq_nil_iff fldPath name, ?_⟩
  exact (IsFullyQualifiedName_eq_nil_iff fldPath "my.pkg.example.com").mpr (by decide)

/-- C2, refuted as stated: the empty name and the name `A` both split into fewer
than three segments, yet neither result contains an error with the
segment-count message (the first is the `Required` error, the second the syntax
error). -/
theorem IsFullyQualifiedName_short_name_counterexample :
    ((strings.Split "" '.').length < 3 ∧
      ¬ ∃ e ∈ IsFullyQualifiedName ["metadata", "name"] "",
        e.Detail = "should be a domain with at least three segments separated by dots")
    ∧ ((strings.Split "A" '.').length < 3 ∧
      ¬ ∃ e ∈ IsFullyQualifiedName ["metadata", "name"] "A",
        e.Detail = "should be a domain with at least three segments separated by dots") := by
  decide

/-- C2, amended: for every name whose split on `.` yields fewer than three
segments, and every field path, `IsFullyQualifiedName` returns a non-empty
list; when the name is moreover non-empty and passes the DNS-1123 subdomain
check, that list is the single `Invalid` error with the message "should be a
domain with at least three segments separated by dots". -/
theorem IsFullyQualifiedName_short_name (fldPath : field.Path) (name : String)
    (hseg : (strings.Split name '.').length < 3) :
    IsFullyQualifiedName fldPath name ≠ [] ∧
    (name ≠ "" → validation.IsDNS1123Subdomain name = [] →
      IsFullyQualifiedName fldPath name =
        [field.Invalid fldPath name
          "should be a domain with at least three segments separated by dots"]) := by
  constructor
  · intro h
    have h3 := ((IsFullyQualifiedName_eq_nil_iff fldPath name).mp h).2
    omega
  · intro hne hdns
    exact IsFullyQualifiedName_segments fldPath name hne hdns hseg

/-- Witness for the amended C2 at the name `a.b`. -/
theorem IsFullyQualifiedName_short_name_witness :
    (strings.Split "a.b" '.').length < 3 ∧
    IsFullyQualifiedName ["metadata", "name"] "a.b" =
      [field.Invalid ["metadata", "name"] "a.b"
        "should be a domain with at least three segments separated by dots"] :=
  ⟨by decide,
   (IsFullyQualifiedName_short_name ["metadata", "name"] "a.b" (by decide)).2
     (by decide) (by decide)⟩

/-- C3, refuted as stated: the name `A` is non-empty, fails the DNS-1123
subdomain check and has fewer than three segments, yet the result holds no
error with the segment-count message: it is the syntax error alone. -/
theorem IsFullyQualifiedName_no_accumulation_counterexample :
    "A" ≠ "" ∧ validation.IsDNS1123Subdomain "A" ≠ [] ∧ (strings.Split "A" '.').length < 3 ∧
    (¬ ∃ e ∈ IsFullyQualifiedName ["metadata", "name"] "A",
        e.Detail = "should be a domain with at least three segments separated by dots") ∧
    (IsFullyQualifiedName ["metadata", "name"] "A").length = 1 := by
  decide

/-- C3, amended: `IsFullyQualifiedName` stops at the first check that fails.  For
every non-empty name that fails the DNS-1123 subdomain check, whatever its
segment count, the result is exactly one `Invalid` error carrying the name and
the comma-joined syntax details; no segment-count error is added. -/
theorem IsFullyQualifiedName_syntax_only (fldPath : field.Path) (name : String)
    (hne : name ≠ "") (hdns : validation.IsDNS1123Subdomain name ≠ []) :
    IsFullyQualifiedName fldPath name =
      [field.Invalid fldPath name (strings.Join (validation.IsDNS1123Subdomain name) ",")] :=
  IsFullyQualifiedName_of_syntax_error fldPath name hne hdns

/-- Witness for the amended C3 at the name `A`, which has a single segment. -/
theorem IsFullyQualifiedName_syntax_only_witness :
    (strings.Split "A" '.').length < 3 ∧
    IsFullyQualifiedName ["metadata", "name"] "A" =
      [field.Invalid ["metadata", "name"] "A"
        (strings.Join (validation.IsDNS1123Subdomain "A") ",")] :=
  ⟨by decide, IsFullyQualifiedName_syntax_only ["metadata", "name"] "A" (by decide) (by decide)⟩

/-- C4: for every field path, `IsFullyQualifiedName` on the empty name returns
exactly one error; it has kind `Required`, is located at that path, and is the
error of the emptiness check, so no syntax or segment-count error is present. -/
theorem IsFullyQualifiedName_empty_name (fldPath : field.Path) :
    IsFullyQualifiedName fldPath "" = [field.Required fldPath ""] ∧
    (IsFullyQualifiedName fldPath "").length = 1 ∧
    (∀ e ∈ IsFullyQualifiedName fldPath "",
      e.Kind = field.ErrorType.ErrorTypeRequired ∧ e.Field = fldPath) := by
  simp [IsFullyQualifiedName_empty, field.Required]

/-! ## The spec validator -/

/-- C5: for every `PackageVersion`, `ValidatePackageVersion` returns the empty
list if and only if `Spec.PackageName` is accepted by `IsFullyQualifiedName`
(at whatever field path), `Spec.Version` is non-empty, and `Name` starts with
`Spec.PackageName` followed by `.`.  In particular, when the first two hold
and `Name` is `Spec.PackageName ++ "." ++ suffix`, the result is empty for
every suffix, the empty one included. -/
theorem ValidatePackageVersion_accepts_iff (pv : PackageVersion) (fldPath : field.Path) :
    (ValidatePackageVersion pv = [] ↔
      (IsFullyQualifiedName fldPath pv.Spec.PackageName = [] ∧
        pv.Spec.Version ≠ "" ∧
        strings.HasPrefix pv.Name (pv.Spec.PackageName ++ ".") = true))
    ∧ (∀ suffix : String,
        IsFullyQualifiedName fldPath pv.Spec.PackageName = [] →
        pv.Spec.Version ≠ "" →
        pv.Name = pv.Spec.PackageName ++ "." ++ suffix →
        ValidatePackageVersion pv = []) := by
  have key : ValidatePackageVersion pv = [] ↔
      (IsFullyQualifiedName fldPath pv.Spec.PackageName = [] ∧
        pv.Spec.Version ≠ "" ∧
        strings.HasPrefix pv.Name (pv.Spec.PackageName ++ ".") = true) := by
    rw [ValidatePackageVersion_eq, List.append_eq_nil, List.append_eq_nil,
      ValidatePackageVersionSpecPackageName_eq_nil_iff, IsFullyQualifiedName_eq_nil_iff,
      IsFullyQualifiedName_eq_nil_iff, ValidatePackageVersionSpecVersion_eq,
      ValidatePackageVersionName_eq]
    by_cases hv : pv.Spec.Version = "" <;>
      by_cases hp : strings.HasPrefix pv.Name (pv.Spec.PackageName ++ ".") = true <;>
      simp [hv, hp, and_assoc]
  refine ⟨key, ?_⟩
  intro suffix hname hver hsuf
  refine key.mpr ⟨hname, hver, ?_⟩
  rw [hsuf]
  exact strings.HasPrefix_append _ _

/-- Witness for C5: package `my.pkg.example.com`, version `1.0.0`, name
`my.pkg.example.com.1.0.0`, and the same package with the empty suffix. -/
theorem ValidatePackageVersion_accepts_iff_witness :
    ValidatePackageVersion
      { Name := "my.pkg.example.com.1.0.0",
        Spec := { PackageName := "my.pkg.example.com", Version := "1.0.0" } } = []
    ∧ ValidatePackageVersion
      { Name := "my.pkg.example.com.",
        Spec := { PackageName := "my.pkg.example.com", Version := "1.0.0" } } = [] :=
  ⟨(ValidatePackageVersion_accepts_iff
      { Name := "my.pkg.example.com.1.0.0",
        Spec := { PackageName := "my.pkg.example.com", Version := "1.0.0" } }
      ["spec", "packageName"]).2 "1.0.0" (by decide) (by decide) (by decide),
   (ValidatePackageVersion_accepts_iff
      { Name := "my.pkg.example.com.",
        Spec := { PackageName := "my.pkg.example.com", Version := "1.0.0" } }
      ["spec", "packageName"]).2 "" (by decide) (by decide) (by decide)⟩

/-- C6: for every `Package`, `ValidatePackage` equals `IsFullyQualifiedName` run
on `pkg.Name` at path `metadata.name`, as the specification words it: the same
errors in the same order and nothing else, every one of them located at
`metadata.name`. -/
theorem ValidatePackage_refines_spec (pkg : Package) :
    ValidatePackage pkg = ValidatePackage_spec pkg ∧
    ValidatePackage pkg = IsFullyQualifiedName ["metadata", "name"] pkg.Name ∧
    (∀ e ∈ ValidatePackage pkg, e.Field = ["metadata", "name"]) := by
  refine ⟨ValidatePackage_eq pkg, ValidatePackage_eq pkg, ?_⟩
  rw [ValidatePackage_eq]
  exact IsFullyQualifiedName_field _ _

/-- C7: for every `Package` whose `Name` passes the DNS-1123 subdomain check but
splits on `.` into fewer than three segments, `ValidatePackage` returns exactly
one error: kind `Invalid`, path `metadata.name`, offending value `Name`, message
"should be a domain with at least three segments separated by dots". -/
theorem ValidatePackage_short_name (pkg : Package)
    (hdns : validation.IsDNS1123Subdomain pkg.Name = [])
    (hseg : (strings.Split pkg.Name '.').length < 3) :
    ValidatePackage pkg =
      [{ Kind := field.ErrorType.ErrorTypeInvalid,
         Field := ["metadata", "name"],
         BadValue := some pkg.Name,
         Detail := "should be a domain with at least three segments separated by dots" }] := by
  rw [ValidatePackage_eq,
    IsFullyQualifiedName_segments _ _
      (validation.ne_empty_of_IsDNS1123Subdomain_nil _ hdns) hdns hseg]
  rfl

/-- Witness for C7 at `Name = "a.b"`. -/
theorem ValidatePackage_short_name_witness :
    validation.IsDNS1123Subdomain "a.b" = [] ∧ (strings.Split "a.b" '.').length < 3 ∧
    ValidatePackage { Name := "a.b" } =
      [{ Kind := field.ErrorType.ErrorTypeInvalid,
         Field := ["metadata", "name"],
         BadValue := some "a.b",
         Detail := "should be a domain with at least three segments separated by dots" }] :=
  ⟨by decide, by decide, ValidatePackage_short_name { Name := "a.b" } (by decide) (by decide)⟩

/-- C8: for every `PackageVersion` whose `Spec.PackageName` is accepted by
`IsFullyQualifiedName` (at whatever field path), whose `Spec.Version` is non-empty, and whose `Name`
does not start with `Spec.PackageName` followed by `.`, `ValidatePackageVersion`
is exactly the one-element list holding the `Invalid` error at path
`metadata.name` with value `Name` and message
"must begin with <spec.packageName> + '.'". -/
theorem ValidatePackageVersion_bad_name_only (pv : PackageVersion) (fldPath : field.Path)
    (hname : IsFullyQualifiedName fldPath pv.Spec.PackageName = [])
    (hver : pv.Spec.Version ≠ "")
    (hpre : strings.HasPrefix pv.Name (pv.Spec.PackageName ++ ".") = false) :
    ValidatePackageVersion pv =
      [{ Kind := field.ErrorType.ErrorTypeInvalid,
         Field := ["metadata", "name"],
         BadValue := some pv.Name,
         Detail := "must begin with <spec.packageName> + '.'" }] := by
  have hname2 : IsFullyQualifiedName ["spec", "packageName"] pv.Spec.PackageName = [] :=
    (IsFullyQualifiedName_eq_nil_iff _ _).mpr ((IsFullyQualifiedName_eq_nil_iff _ _).mp hname)
  rw [ValidatePackageVersion_eq,
    (ValidatePackageVersionSpecPackageName_eq_nil_iff _ _).mpr hname2,
    ValidatePackageVersionSpecVersion_eq, ValidatePackageVersionName_eq]
  simp [hver, hpre, field.Invalid]

/-- Witness for C8: package `my.pkg.example.com`, version `1.0.0`, name
`other.1.0.0`. -/
theorem ValidatePackageVersion_bad_name_only_witness :
    ValidatePackageVersion
      { Name := "other.1.0.0",
        Spec := { PackageName := "my.pkg.example.com", Version := "1.0.0" } } =
      [{ Kind := field.ErrorType.ErrorTypeInvalid,
         Field := ["metadata", "name"],
         BadValue := some "other.1.0.0",
         Detail := "must begin with <spec.packageName> + '.'" }] :=
  ValidatePackageVersion_bad_name_only
    { Name := "other.1.0.0",
      Spec := { PackageName := "my.pkg.example.com", Version := "1.0.0" } }
    ["spec", "packageName"] (by decide) (by decide) (by decide)

/-- C9: the cross-field name rule does not depend on the other fields.  For every
`PackageVersion`, the errors of `ValidatePackageVersion` located at path
`metadata.name` are: none when `Name` starts with `Spec.PackageName` followed
by `.`, and otherwise exactly one, the `Invalid` error with value `Name` and
message "must begin with <spec.packageName> + '.'"; their number is 0 or 1
accordingly. -/
theorem ValidatePackageVersion_name_rule (pv : PackageVersion) :
    (ValidatePackageVersion pv).filter (fun e => decide (e.Field = ["metadata", "name"])) =
      (if strings.HasPrefix pv.Name (pv.Spec.PackageName ++ ".") = true then []
       else [{ Kind := field.ErrorType.ErrorTypeInvalid,
               Field := ["metadata", "name"],
               BadValue := some pv.Name,
               Detail := "must begin with <spec.packageName> + '.'" }])
    ∧ (ValidatePackageVersion pv).countP (fun e => decide (e.Field = ["metadata", "name"])) =
      (if strings.HasPrefix pv.Name (pv.Spec.PackageName ++ ".") = true then 0 else 1) := by
  have h1 : (ValidatePackageVersionSpecPackageName pv.Spec.PackageName
      ["spec", "packageName"]).filter (fun e => decide (e.Field = ["metadata", "name"])) = [] := by
    rw [List.filter_eq_nil_iff]
    intro e he
    rw [ValidatePackageVersionSpecPackageName_field _ _ e he]
    decide
  have h2 : (ValidatePackageVersionSpecVersion pv.Spec.Version
      ["spec", "version"]).filter (fun e => decide (e.Field = ["metadata", "name"])) = [] := by
    rw [ValidatePackageVersionSpecVersion_eq]
    by_cases hv : pv.Spec.Version = "" <;> simp [hv, field.Invalid]
  have h3 : (ValidatePackageVersion pv).filter
      (fun e => decide (e.Field = ["metadata", "name"])) =
      (if strings.HasPrefix pv.Name (pv.Spec.PackageName ++ ".") = true then []
       else [{ Kind := field.ErrorType.ErrorTypeInvalid,
               Field := ["metadata", "name"],
               BadValue := some pv.Name,
               Detail := "must begin with <spec.packageName> + '.'" }]) := by
    rw [ValidatePackageVersion_eq, List.filter_append, List.filter_append, h1, h2,
      ValidatePackageVersionName_eq]
    by_cases hp : strings.HasPrefix pv.Name (pv.Spec.PackageName ++ ".") = true <;>
      simp [hp, field.Invalid]
  refine ⟨h3, ?_⟩
  rw [List.countP_eq_length_filter, h3]
  by_cases hp : strings.HasPrefix pv.Name (pv.Spec.PackageName ++ ".") = true <;> simp [hp]

/-- C10, refuted as stated: with an empty `Spec.Version` the result holds no
error of kind `Required` at path `spec.version`; the one error reported there
has kind `Invalid`. -/
theorem ValidatePackageVersion_version_kind_counterexample :
    (¬ ∃ e ∈ ValidatePackageVersion
        { Name := "my.pkg.example.com.1.0.0",
          Spec := { PackageName := "my.pkg.example.com", Version := "" } },
      e.Field = ["spec", "version"] ∧ e.Kind = field.ErrorType.ErrorTypeRequired)
    ∧ ValidatePackageVersion
        { Name := "my.pkg.example.com.1.0.0",
          Spec := { PackageName := "my.pkg.example.com", Version := "" } } =
      [{ Kind := field.ErrorType.ErrorTypeInvalid,
         Field := ["spec", "version"],
         BadValue := some "",
         Detail := "cannot be empty" }] := by
  decide

/-- C10, amended: `Spec.Version` must be non-empty.  For every `PackageVersion`
with an empty `Spec.Version`, `ValidatePackageVersion` contains exactly one
error at path `spec.version`, and that error has kind `Invalid`, carries the
empty string as offending value, and has message "cannot be empty"; for every
`PackageVersion` with a non-empty `Spec.Version` the result contains no error
at path `spec.version`. -/
theorem ValidatePackageVersion_version_rule (pv : PackageVersion) :
    (pv.Spec.Version = "" →
      (ValidatePackageVersion pv).filter (fun e => decide (e.Field = ["spec", "version"])) =
        [{ Kind := field.ErrorType.ErrorTypeInvalid,
           Field := ["spec", "version"],
           BadValue := some "",
           Detail := "cannot be empty" }])
    ∧ (pv.Spec.Version ≠ "" →
      (ValidatePackageVersion pv).filter (fun e => decide (e.Field = ["spec", "version"])) = []) := by
  have h1 : (ValidatePackageVersionSpecPackageName pv.Spec.PackageName
      ["spec", "packageName"]).filter (fun e => decide (e.Field = ["spec", "version"])) = [] := by
    rw [List.filter_eq_nil_iff]
    intro e he
    rw [ValidatePackageVersionSpecPackageName_field _ _ e he]
    decide
  have h3 : (ValidatePackageVersionName pv.Name pv.Spec.PackageName
      ["metadata", "name"]).filter (fun e => decide (e.Field = ["spec", "version"])) = [] := by
    rw [ValidatePackageVersionName_eq]
    by_cases hp : strings.HasPrefix pv.Name (pv.Spec.PackageName ++ ".") = true <;>
      simp [hp, field.Invalid]
  constructor
  · intro hv
    rw [ValidatePackageVersion_eq, List.filter_append, List.filter_append, h1, h3,
      ValidatePackageVersionSpecVersion_eq]
    simp [hv, field.Invalid]
  · intro hv
    rw [ValidatePackageVersion_eq, List.filter_append, List.filter_append, h1, h3,
      ValidatePackageVersionSpecVersion_eq]
    simp [hv]

/-- Witness for the amended C10: an empty version (beside an empty package name,
whose own errors lie at another path), and the version `1.0.0`. -/
theorem ValidatePackageVersion_version_rule_witness :
    (ValidatePackageVersion
        { Name := "x", Spec := { PackageName := "", Version := "" } }).filter
        (fun e => decide (e.Field = ["spec", "version"])) =
      [{ Kind := field.ErrorType.ErrorTypeInvalid,
         Field := ["spec", "version"],
         BadValue := some "",
         Detail := "cannot be empty" }]
    ∧ (ValidatePackageVersion
        { Name := "x", Spec := { PackageName := "", Version := "1.0.0" } }).filter
        (fun e => decide (e.Field = ["spec", "version"])) = [] :=
  ⟨(ValidatePackageVersion_version_rule
      { Name := "x", Spec := { PackageName := "", Version := "" } }).1 (by decide),
   (ValidatePackageVersion_version_rule
      { Name := "x", Spec := { PackageName := "", Version := "1.0.0" } }).2 (by decide)⟩

/-! ## Further auxiliary facts -/

theorem strings.splitAux_length (sep : Char) (l cur : List Char) :
    (strings.splitAux sep l cur).length = l.count sep + 1 := by
  induction l generalizing cur with
  | nil => simp [strings.splitAux]
  | cons c cs ih =>
    by_cases hc : c = sep
    · subst hc
      simp [strings.splitAux, ih]
    · have hbeq : (c == sep) = false := by simpa using hc
      simp [strings.splitAux, hc, ih, List.count_cons, hbeq]

theorem strings.Split_length (s : String) (sep : Char) :
    (strings.Split s sep).length = s.data.count sep + 1 :=
  strings.splitAux_length sep s.data []

theorem strings.count_le_of_HasPrefix (s p : String) (c : Char)
    (h : strings.HasPrefix s p = true) : p.data.count c ≤ s.data.count c := by
  obtain ⟨t, ht⟩ := List.isPrefixOf_iff_prefix.mp h
  rw [← ht, List.count_append]
  exact Nat.le_add_right _ _

theorem ValidatePackageVersionSpecPackageName_empty (fldPath : field.Path) :
    ValidatePackageVersionSpecPackageName "" fldPath =
      [field.Required fldPath "can not be empty", field.Required fldPath ""] := rfl

theorem ValidatePackageVersionSpecPackageName_of_ne (name : String) (fldPath : field.Path)
    (hne : name ≠ "") :
    ValidatePackageVersionSpecPackageName name fldPath = IsFullyQualifiedName fldPath name := by
  simp [ValidatePackageVersionSpecPackageName, ValidatePackageName_eq, hne]

/-! ## Aggregation of the rules -/

/-- C11: for every `PackageVersion` with empty `Spec.PackageName` and empty
`Spec.Version`, whatever its `Name`, `ValidatePackageVersion` has at least
three errors.  It begins with two distinct errors of kind `Required` at path
`spec.packageName`, first the presence check with message "can not be empty"
and then the `Required` error of the fully-qualified-name grammar, followed by
one error at path `spec.version`; what remains is the outcome of the name
rule. -/
theorem ValidatePackageVersion_empty_reference (pv : PackageVersion)
    (hname : pv.Spec.PackageName = "") (hver : pv.Spec.Version = "") :
    3 ≤ (ValidatePackageVersion pv).length ∧
    (field.Required ["spec", "packageName"] "can not be empty" ≠
      field.Required ["spec", "packageName"] "") ∧
    (field.Required ["spec", "packageName"] "can not be empty").Kind =
      field.ErrorType.ErrorTypeRequired ∧
    (field.Required ["spec", "packageName"] "").Kind = field.ErrorType.ErrorTypeRequired ∧
    IsFullyQualifiedName ["spec", "packageName"] pv.Spec.PackageName =
      [field.Required ["spec", "packageName"] ""] ∧
    ∃ atVersion : field.Error, atVersion.Field = ["spec", "version"] ∧
      ValidatePackageVersion pv =
        field.Required ["spec", "packageName"] "can not be empty"
          :: field.Required ["spec", "packageName"] ""
          :: atVersion
          :: ValidatePackageVersionName pv.Name pv.Spec.PackageName ["metadata", "name"] := by
  have hshape : ValidatePackageVersion pv =
      field.Required ["spec", "packageName"] "can not be empty"
        :: field.Required ["spec", "packageName"] ""
        :: field.Invalid ["spec", "version"] "" "cannot be empty"
        :: ValidatePackageVersionName pv.Name pv.Spec.PackageName ["metadata", "name"] := by
    rw [ValidatePackageVersion_eq, hname, hver, ValidatePackageVersionSpecPackageName_empty,
      ValidatePackageVersionSpecVersion_eq]
    simp
  refine ⟨?_, by decide, rfl, rfl, ?_, field.Invalid ["spec", "version"] "" "cannot be empty",
    rfl, hshape⟩
  · rw [hshape]
    simp
  · rw [hname]
    exact IsFullyQualifiedName_empty _

/-- Witness for C11 at `Name = "x"`: here all four errors are present. -/
theorem ValidatePackageVersion_empty_reference_witness :
    3 ≤ (ValidatePackageVersion
      { Name := "x", Spec := { PackageName := "", Version := "" } }).length ∧
    ValidatePackageVersion { Name := "x", Spec := { PackageName := "", Version := "" } } =
      [field.Required ["spec", "packageName"] "can not be empty",
       field.Required ["spec", "packageName"] "",
       field.Invalid ["spec", "version"] "" "cannot be empty",
       field.Invalid ["metadata", "name"] "x" "must begin with <spec.packageName> + '.'"] :=
  ⟨(ValidatePackageVersion_empty_reference
      { Name := "x", Spec := { PackageName := "", Version := "" } } rfl rfl).1,
   by decide⟩

/-- C12: for every `PackageVersion`, `ValidatePackageVersion` is the
concatenation, in this order, of the results of the three rules, each computed
from its own inputs alone: the package-name rule at `spec.packageName`, the
version rule at `spec.version`, the name rule at `metadata.name`.  Every error
of every rule is therefore present, and the number of errors is the sum of the
three. -/
theorem ValidatePackageVersion_is_concatenation (pv : PackageVersion) :
    ValidatePackageVersion pv =
      ValidatePackageVersionSpecPackageName pv.Spec.PackageName
          (field.NewPath "spec" ["packageName"])
        ++ ValidatePackageVersionSpecVersion pv.Spec.Version (field.NewPath "spec" ["version"])
        ++ ValidatePackageVersionName pv.Name pv.Spec.PackageName
          ((field.NewPath "metadata" []).Child "name")
    ∧ (ValidatePackageVersion pv).length =
      (ValidatePackageVersionSpecPackageName pv.Spec.PackageName ["spec", "packageName"]).length
        + (ValidatePackageVersionSpecVersion pv.Spec.Version ["spec", "version"]).length
        + (ValidatePackageVersionName pv.Name pv.Spec.PackageName ["metadata", "name"]).length := by
  constructor
  · simp [ValidatePackageVersion]
  · rw [ValidatePackageVersion_eq, List.length_append, List.length_append]

/-- C13, evaluated where the code departs from it: with package
`my.pkg.example.com`, version `1.0.0` and name `my.pkg.example.com.2.0.0` the
validator reports nothing at all, hence nothing at path `metadata.name`,
although the name is not `Spec.PackageName ++ "." ++ Spec.Version`.  Only the
prefix `Spec.PackageName ++ "."` is compared; the version never reaches
`ValidatePackageVersionName`. -/
theorem ValidatePackageVersion_name_ignores_version :
    ValidatePackageVersion
      { Name := "my.pkg.example.com.2.0.0",
        Spec := { PackageName := "my.pkg.example.com", Version := "1.0.0" } } = []
    ∧ (ValidatePackageVersion
      { Name := "my.pkg.example.com.2.0.0",
        Spec := { PackageName := "my.pkg.example.com", Version := "1.0.0" } }).filter
        (fun e => decide (e.Field = ["metadata", "name"])) = []
    ∧ "my.pkg.example.com.2.0.0" ≠ "my.pkg.example.com" ++ "." ++ "1.0.0" := by
  decide

/-! ## Shape and size of the results -/

theorem IsFullyQualifiedName_cases (fldPath : field.Path) (name : String) :
    IsFullyQualifiedName fldPath name = [] ∨
    IsFullyQualifiedName fldPath name = [field.Required fldPath ""] ∨
    IsFullyQualifiedName fldPath name =
      [field.Invalid fldPath name (strings.Join (validation.IsDNS1123Subdomain name) ",")] ∨
    IsFullyQualifiedName fldPath name =
      [field.Invalid fldPath name
        "should be a domain with at least three segments separated by dots"] := by
  by_cases hne : name = ""
  · subst hne
    exact Or.inr (Or.inl (IsFullyQualifiedName_empty fldPath))
  · by_cases hdns : validation.IsDNS1123Subdomain name = []
    · by_cases hseg : (strings.Split name '.').length < 3
      · exact Or.inr (Or.inr (Or.inr (IsFullyQualifiedName_segments fldPath name hne hdns hseg)))
      · exact Or.inl (IsFullyQualifiedName_accept fldPath name hne hdns (Nat.not_lt.mp hseg))
    · exact Or.inr (Or.inr (Or.inl (IsFullyQualifiedName_of_syntax_error fldPath name hne hdns)))

theorem IsFullyQualifiedName_shape (fldPath : field.Path) (name : String) :
    ∀ e ∈ IsFullyQualifiedName fldPath name,
      e.Field = fldPath ∧
      ((e.Kind = field.ErrorType.ErrorTypeRequired ∧ e.BadValue = none) ∨
       (e.Kind = field.ErrorType.ErrorTypeInvalid ∧ e.BadValue = some name)) := by
  intro e he
  rcases IsFullyQualifiedName_cases fldPath name with h | h | h | h <;> rw [h] at he <;>
    simp at he <;> subst he <;> simp [field.Required, field.Invalid]

theorem ValidatePackageVersionSpecPackageName_shape (name : String) (fldPath : field.Path) :
    ∀ e ∈ ValidatePackageVersionSpecPackageName name fldPath,
      e.Field = fldPath ∧
      ((e.Kind = field.ErrorType.ErrorTypeRequired ∧ e.BadValue = none) ∨
       (e.Kind = field.ErrorType.ErrorTypeInvalid ∧ e.BadValue = some name)) := by
  intro e he
  by_cases hne : name = ""
  · subst hne
    rw [ValidatePackageVersionSpecPackageName_empty] at he
    simp at he
    rcases he with he | he <;> subst he <;> simp [field.Required]
  · rw [ValidatePackageVersionSpecPackageName_of_ne name fldPath hne] at he
    exact IsFullyQualifiedName_shape fldPath name e he

theorem ValidatePackageVersionSpecVersion_shape (version : String) (fldPath : field.Path) :
    ∀ e ∈ ValidatePackageVersionSpecVersion version fldPath,
      e.Field = fldPath ∧ e.Kind = field.ErrorType.ErrorTypeInvalid ∧
        e.BadValue = some version := by
  intro e he
  rw [ValidatePackageVersionSpecVersion_eq] at he
  by_cases hv : version = ""
  · subst hv
    simp at he
    subst he
    simp [field.Invalid]
  · simp [hv] at he

theorem ValidatePackageVersionName_shape (pvName pkgName : String) (fldPath : field.Path) :
    ∀ e ∈ ValidatePackageVersionName pvName pkgName fldPath,
      e.Field = fldPath ∧ e.Kind = field.ErrorType.ErrorTypeInvalid ∧
        e.BadValue = some pvName := by
  intro e he
  rw [ValidatePackageVersionName_eq] at he
  by_cases hp : strings.HasPrefix pvName (pkgName ++ ".") = true
  · simp [hp] at he
  · simp [hp] at he
    subst he
    simp [field.Invalid]

/-- C14: result-shape invariant.  Every error of `ValidatePackage` and of
`ValidatePackageVersion`, on every input, has kind `Required` or `Invalid`; a
`Required` error carries no offending value; an `Invalid` error carries the
content of the field its path names (`Name` at `metadata.name`,
`Spec.PackageName` at `spec.packageName`, `Spec.Version` at `spec.version`);
and the path is one of `metadata.name`, `spec.packageName`, `spec.version`
(always `metadata.name` for a `Package`). -/
theorem Validate_result_shape (pkg : Package) (pv : PackageVersion) :
    (∀ e ∈ ValidatePackage pkg,
      (e.Kind = field.ErrorType.ErrorTypeRequired ∨ e.Kind = field.ErrorType.ErrorTypeInvalid) ∧
      (e.Kind = field.ErrorType.ErrorTypeRequired → e.BadValue = none) ∧
      (e.Kind = field.ErrorType.ErrorTypeInvalid → e.BadValue = some pkg.Name) ∧
      e.Field = ["metadata", "name"])
    ∧ (∀ e ∈ ValidatePackageVersion pv,
      (e.Kind = field.ErrorType.ErrorTypeRequired ∨ e.Kind = field.ErrorType.ErrorTypeInvalid) ∧
      (e.Kind = field.ErrorType.ErrorTypeRequired → e.BadValue = none) ∧
      (e.Kind = field.ErrorType.ErrorTypeInvalid →
        (e.Field = ["metadata", "name"] ∧ e.BadValue = some pv.Name) ∨
        (e.Field = ["spec", "packageName"] ∧ e.BadValue = some pv.Spec.PackageName) ∨
        (e.Field = ["spec", "version"] ∧ e.BadValue = some pv.Spec.Version)) ∧
      (e.Field = ["metadata", "name"] ∨ e.Field = ["spec", "packageName"] ∨
        e.Field = ["spec", "version"])) := by
  constructor
  · intro e he
    rw [ValidatePackage_eq] at he
    obtain ⟨hf, hk⟩ := IsFullyQualifiedName_shape _ _ e he
    rcases hk with ⟨hk, hb⟩ | ⟨hk, hb⟩ <;> simp [hf, hk, hb]
  · intro e he
    rw [ValidatePackageVersion_eq, List.mem_append, List.mem_append] at he
    rcases he with (he | he) | he
    · obtain ⟨hf, hk⟩ := ValidatePackageVersionSpecPackageName_shape _ _ e he
      rcases hk with ⟨hk, hb⟩ | ⟨hk, hb⟩ <;> simp [hf, hk, hb]
    · obtain ⟨hf, hk, hb⟩ := ValidatePackageVersionSpecVersion_shape _ _ e he
      simp [hf, hk, hb]
    · obtain ⟨hf, hk, hb⟩ := ValidatePackageVersionName_shape _ _ _ e he
      simp [hf, hk, hb]

/-- Witness for C14: the four errors reported for an empty package name, an
empty version and the name `x` all have the stated shape. -/
theorem Validate_result_shape_witness :
    ∀ e ∈ ValidatePackageVersion { Name := "x", Spec := { PackageName := "", Version := "" } },
      (e.Kind = field.ErrorType.ErrorTypeRequired ∨ e.Kind = field.ErrorType.ErrorTypeInvalid) ∧
      (e.Kind = field.ErrorType.ErrorTypeRequired → e.BadValue = none) ∧
      (e.Kind = field.ErrorType.ErrorTypeInvalid →
        (e.Field = ["metadata", "name"] ∧ e.BadValue = some "x") ∨
        (e.Field = ["spec", "packageName"] ∧ e.BadValue = some "") ∨
        (e.Field = ["spec", "version"] ∧ e.BadValue = some "")) ∧
      (e.Field = ["metadata", "name"] ∨ e.Field = ["spec", "packageName"] ∨
        e.Field = ["spec", "version"]) :=
  (Validate_result_shape { Name := "a.b" }
    { Name := "x", Spec := { PackageName := "", Version := "" } }).2

/-- C15: for every field path and every name, `IsFullyQualifiedName` returns at
most one error.  Its result is one of: nothing, the `Required` error of the
emptiness check, the `Invalid` error of the syntax check, or the `Invalid` error
of the segment-count check; each check returns as soon as it fails. -/
theorem IsFullyQualifiedName_at_most_one (fldPath : field.Path) (name : String) :
    (IsFullyQualifiedName fldPath name).length ≤ 1 ∧
    (IsFullyQualifiedName fldPath name = [] ∨
      IsFullyQualifiedName fldPath name = [field.Required fldPath ""] ∨
      IsFullyQualifiedName fldPath name =
        [field.Invalid fldPath name (strings.Join (validation.IsDNS1123Subdomain name) ",")] ∨
      IsFullyQualifiedName fldPath name =
        [field.Invalid fldPath name
          "should be a domain with at least three segments separated by dots"]) :=
  ⟨IsFullyQualifiedName_length_le_one fldPath name, IsFullyQualifiedName_cases fldPath name⟩

theorem ValidatePackageVersionSpecVersion_length (version : String) (fldPath : field.Path) :
    (ValidatePackageVersionSpecVersion version fldPath).length = if version = "" then 1 else 0 := by
  rw [ValidatePackageVersionSpecVersion_eq]
  by_cases hv : version = "" <;> simp [hv]

theorem ValidatePackageVersionName_length (pvName pkgName : String) (fldPath : field.Path) :
    (ValidatePackageVersionName pvName pkgName fldPath).length =
      if strings.HasPrefix pvName (pkgName ++ ".") = true then 0 else 1 := by
  rw [ValidatePackageVersionName_eq]
  by_cases hp : strings.HasPrefix pvName (pkgName ++ ".") = true <;> simp [hp]

/-- C16: for every `PackageVersion`, `ValidatePackageVersion` has at most four
errors, and exactly four if and only if `Spec.PackageName` is empty,
`Spec.Version` is empty and `Name` does not start with `.` (the prefix required
of `Name` when the package name is empty). -/
theorem ValidatePackageVersion_at_most_four (pv : PackageVersion) :
    (ValidatePackageVersion pv).length ≤ 4 ∧
    ((ValidatePackageVersion pv).length = 4 ↔
      (pv.Spec.PackageName = "" ∧ pv.Spec.Version = "" ∧
        strings.HasPrefix pv.Name "." = false)) := by
  have hlen : (ValidatePackageVersion pv).length =
      (ValidatePackageVersionSpecPackageName pv.Spec.PackageName ["spec", "packageName"]).length
        + (if pv.Spec.Version = "" then 1 else 0)
        + (if strings.HasPrefix pv.Name (pv.Spec.PackageName ++ ".") = true then 0 else 1) := by
    rw [ValidatePackageVersion_eq, List.length_append, List.length_append,
      ValidatePackageVersionSpecVersion_length, ValidatePackageVersionName_length]
  by_cases hn : pv.Spec.PackageName = ""
  · have hdot : ("" : String) ++ "." = "." := rfl
    rw [hn, ValidatePackageVersionSpecPackageName_empty, hdot] at hlen
    by_cases hv : pv.Spec.Version = "" <;>
      by_cases hp : strings.HasPrefix pv.Name "." = true <;>
      simp [hlen, hn, hv, hp]
  · have h1 : (ValidatePackageVersionSpecPackageName pv.Spec.PackageName
        ["spec", "packageName"]).length ≤ 1 := by
      rw [ValidatePackageVersionSpecPackageName_of_ne _ _ hn]
      exact IsFullyQualifiedName_length_le_one _ _
    have h2 : (if pv.Spec.Version = "" then 1 else 0) ≤ 1 := by split <;> omega
    have h3 : (if strings.HasPrefix pv.Name (pv.Spec.PackageName ++ ".") = true then 0 else 1)
        ≤ 1 := by split <;> omega
    constructor
    · omega
    · constructor
      · intro h4
        omega
      · intro h
        exact absurd h.1 hn

/-- C17: for every `PackageVersion` accepted by the validator, splitting `Name`
on `.` yields at least four segments, and a `Package` named
`Spec.PackageName` is accepted by `ValidatePackage`.  `Name` itself need not
pass the DNS-1123 subdomain check: some accepted `PackageVersion` has a `Name`
that fails it. -/
theorem ValidatePackageVersion_accepted_name (pv : PackageVersion)
    (hacc : ValidatePackageVersion pv = []) :
    4 ≤ (strings.Split pv.Name '.').length ∧
    ValidatePackage { Name := pv.Spec.PackageName } = [] ∧
    ∃ qv : PackageVersion, ValidatePackageVersion qv = [] ∧
      qv.Name = qv.Spec.PackageName ++ "." ∧
      validation.IsDNS1123Subdomain qv.Name ≠ [] := by
  rw [ValidatePackageVersion_eq, List.append_eq_nil, List.append_eq_nil,
    ValidatePackageVersionSpecPackageName_eq_nil_iff, ValidatePackageVersionName_eq] at hacc
  obtain ⟨⟨hfqn, _⟩, hname⟩ := hacc
  have hpre : strings.HasPrefix pv.Name (pv.Spec.PackageName ++ ".") = true := by
    by_cases hp : strings.HasPrefix pv.Name (pv.Spec.PackageName ++ ".") = true
    · exact hp
    · simp [hp] at hname
  have hseg := ((IsFullyQualifiedName_eq_nil_iff _ _).mp hfqn).2
  rw [strings.Split_length] at hseg
  have hcount := strings.count_le_of_HasPrefix pv.Name (pv.Spec.PackageName ++ ".") '.' hpre
  have hdot : (pv.Spec.PackageName ++ ".").data.count '.' =
      pv.Spec.PackageName.data.count '.' + 1 := by
    simp [String.data_append, List.count_append]
  refine ⟨?_, ?_, ?_⟩
  · rw [strings.Split_length]
    omega
  · rw [ValidatePackage_eq]
    exact (IsFullyQualifiedName_eq_nil_iff _ _).mpr ((IsFullyQualifiedName_eq_nil_iff _ _).mp hfqn)
  · exact ⟨{ Name := "my.pkg.example.com.",
             Spec := { PackageName := "my.pkg.example.com", Version := "1.0.0" } },
      by decide, by decide, by decide⟩

/-- Witness for C17: package `my.pkg.example.com`, version `1.0.0`, name
`my.pkg.example.com.1.0.0`, which has seven segments. -/
theorem ValidatePackageVersion_accepted_name_witness :
    ValidatePackageVersion
      { Name := "my.pkg.example.com.1.0.0",
        Spec := { PackageName := "my.pkg.example.com", Version := "1.0.0" } } = []
    ∧ 4 ≤ (strings.Split "my.pkg.example.com.1.0.0" '.').length
    ∧ ValidatePackage { Name := "my.pkg.example.com" } = [] :=
  ⟨by decide,
   (ValidatePackageVersion_accepted_name
      { Name := "my.pkg.example.com.1.0.0",
        Spec := { PackageName := "my.pkg.example.com", Version := "1.0.0" } } (by decide)).1,
   (ValidatePackageVersion_accepted_name
      { Name := "my.pkg.example.com.1.0.0",
        Spec := { PackageName := "my.pkg.example.com", Version := "1.0.0" } } (by decide)).2.1⟩
